import Mathlib

/-!
A shallow embedding of `manifest.py` from the teamplayManifest-py repository
(Teamplay manifest parsing, generation and packaging), together with proofs
about its behaviour.

JSON values parsed by Python's `json` module are modelled by the inductive
type `JVal`; Python subscripting `d[k]` (which can raise `KeyError`,
`TypeError` or `IndexError`) is modelled by `jindex` returning `Except`.
Time is external input: functions that call `datetime.now()` in Python take
the relevant timestamp string as an explicit argument.  The filesystem is
modelled by a predicate `onDisk : String → Bool`.
-/

namespace TeamplayManifest

/-- A JSON value, as produced by Python's `json.loads`. -/
inductive JVal where
  | str (s : String)
  | num (n : Int)
  | bool (b : Bool)
  | null
  | arr (xs : List JVal)
  | obj (kvs : List (String × JVal))

/-- A Python subscript used in a key path: a string key or a non-negative
integer index (the source only ever uses the index `0`). -/
inductive JKey where
  | ks (s : String)
  | ki (n : Nat)
deriving Repr, DecidableEq

/-- The Python exceptions that can arise from the modelled code paths.
`nonString`/`nonArray` mark places where the Python code would store an
arbitrary JSON value into a field this typed embedding keeps as a
`String`/list; every input arising in the claims is string-shaped there. -/
inductive PyError where
  | keyError (k : String)
  | typeError
  | indexError
  | nonString (field : String)
  | nonArray (field : String)
  | recursionError
deriving Repr, DecidableEq

/-- Association-list lookup for JSON object keys (Python `dict` access). -/
def jfind (kvs : List (String × JVal)) (k : String) : Option JVal :=
  match kvs with
  | [] => none
  | (k2, v) :: rest => if k2 = k then some v else jfind rest k

/-- Python subscripting `d[k]` on a parsed JSON value:
a dict yields the value or `KeyError`; a list with an in-range index yields
the element, out of range `IndexError`, with a string key `TypeError`;
a string indexes to a one-character string; every other value raises
`TypeError`. -/
def jindex (d : JVal) (k : JKey) : Except PyError JVal :=
  match d, k with
  | .obj kvs, .ks s =>
      match jfind kvs s with
      | some v => .ok v
      | none => .error (.keyError s)
  | .obj _, .ki n => .error (.keyError (toString n))
  | .arr xs, .ki n =>
      match xs.get? n with
      | some v => .ok v
      | none => .error .indexError
  | .arr _, .ks _ => .error .typeError
  | .str s, .ki n =>
      match s.data.get? n with
      | some c => .ok (.str (String.mk [c]))
      | none => .error .indexError
  | .str _, .ks _ => .error .typeError
  | _, _ => .error .typeError

/-- Model of `try_nested_key`: recursively look up keys in a nested structure,
returning the fallback when a step raises `KeyError` or `TypeError`.
`IndexError` is NOT in the `except` clause of the source, so it
propagates. -/
def try_nested_key (d : JVal) (key_list : List JKey) (fallback : JVal) :
    Except PyError JVal :=
  match key_list with
  | [] => .ok d
  | k :: rest =>
      match jindex d k with
      | .ok v => try_nested_key v rest fallback
      | .error (.keyError _) => .ok fallback
      | .error .typeError => .ok fallback
      | .error e => .error e

/-- Is a character in the class `[-_()a-zA-Z0-9]` of the regex in
`clean_for_filename`? -/
def allowedChar (c : Char) : Bool :=
  c.toNat = 45 || c.toNat = 95 || c.toNat = 40 || c.toNat = 41 ||
  (97 ≤ c.toNat && c.toNat ≤ 122) || (65 ≤ c.toNat && c.toNat ≤ 90) ||
  (48 ≤ c.toNat && c.toNat ≤ 57)

/-- Step one, `s.encode("ASCII", "replace")` followed by decode, per
character:
characters outside the ASCII range become `?`. -/
def asciiReplaceChar (c : Char) : Char :=
  if c.toNat ≤ 127 then c else '?'

/-- Step two, `s.replace('?', '_')`, per character. -/
def questionToUnderscore (c : Char) : Char :=
  if c = '?' then '_' else c

/-- Step three, `re.sub("[^-_()a-zA-Z0-9]", "_", s)`, per character. -/
def subDisallowed (c : Char) : Char :=
  if allowedChar c then c else '_'

/-- The three characterwise passes of `clean_for_filename`, composed. -/
def sanitizeChar (c : Char) : Char :=
  subDisallowed (questionToUnderscore (asciiReplaceChar c))

/-- Model of `clean_for_filename`: transliterate to ASCII with `?` substitution,
replace `?` by `_`, then replace everything outside `[-_()a-zA-Z0-9]`
by `_`.  All three passes act characterwise, so they compose per char. -/
def clean_for_filename (s : String) : String :=
  String.mk (s.data.map sanitizeChar)

/-- One validated file attachment: the three fields a `FileAttachmentList`
record keeps (`clean_f` in `FileAttachmentList.insert`). -/
structure FileAttachment where
  Filename : String
  Description : String
  MIME : String
deriving Repr, DecidableEq

/-- String-valued association-list lookup, modelling access to an
attachment-describing Python dict. -/
def sfind (kvs : List (String × String)) (k : String) : Option String :=
  match kvs with
  | [] => none
  | (k2, v) :: rest => if k2 = k then some v else sfind rest k

/-- The dict branch of `FileAttachmentList.insert` (the argument has a
`keys` attribute): build `clean_f` from exactly the three recognised keys —
`f['Filename']` is evaluated first, then `f['Description']`, then
`f['MIME']`, raising `KeyError` on the first absent one — and append it.
Field values are modelled as strings. -/
def insertDict (fs : List FileAttachment)
    (f : List (String × String)) : Except PyError (List FileAttachment) :=
  match sfind f "Filename" with
  | none => .error (.keyError "Filename")
  | some fn =>
      match sfind f "Description" with
      | none => .error (.keyError "Description")
      | some desc =>
          match sfind f "MIME" with
          | none => .error (.keyError "MIME")
          | some mime => .ok (fs ++ [⟨fn, desc, mime⟩])

/-- A Python value handed to `FileAttachmentList.insert`: an
attachment-style dict (string-valued), a list, or a string. -/
inductive PyVal where
  | pstr (s : String)
  | plist (xs : List PyVal)
  | pdict (kvs : List (String × String))
deriving Repr

/-- What `for i in f` yields in Python for each `PyVal`: a string yields
its characters as one-character strings, a list its elements, a dict its
keys (as strings). -/
def pyElems : PyVal → List PyVal
  | .pstr s => s.data.map (fun c => .pstr (String.mk [c]))
  | .plist xs => xs
  | .pdict kvs => kvs.map (fun kv => .pstr kv.1)

/-- The `for i in f: self.insert(i)` loop: insert each element in order
with the given one-element inserter, stopping at the first exception. -/
def insertEachWith
    (ins : PyVal → List FileAttachment → Except PyError (List FileAttachment)) :
    List PyVal → List FileAttachment → Except PyError (List FileAttachment)
  | [], fs => .ok fs
  | x :: rest, fs =>
      match ins x fs with
      | .error e => .error e
      | .ok fs2 => insertEachWith ins rest fs2

/-- Model of `FileAttachmentList.insert`, with a fuel bound on the recursion depth
modelling the finite call stack of the interpreter: running out of fuel is
a `RecursionError`.  A dict (a value with a `keys` attribute) is inserted
directly; anything else is iterated and each element inserted recursively
one stack frame deeper. -/
def insertFuel (fuel : Nat) :
    PyVal → List FileAttachment → Except PyError (List FileAttachment) :=
  match fuel with
  | 0 => fun _ _ => .error .recursionError
  | n + 1 => fun v fs =>
      match v with
      | .pdict kvs => insertDict fs kvs
      | v2 => insertEachWith (insertFuel n) (pyElems v2) fs

/-- The manifest record: the fields of the Python `Manifest` class (the
unused class attribute `ts` is omitted; `inputFiles`/`outputFiles` hold the
`_files` list of their `FileAttachmentList`). -/
structure Manifest where
  status : String
  authoredOn : String
  lastModified : String
  patientID : String
  zipfile : String
  encounter : String
  performer : String
  inputFiles : List FileAttachment
  outputFiles : List FileAttachment
deriving Repr, DecidableEq

/-- Model of `Manifest.new`: a fresh manifest in status `requested`.  `authoredOn`
is the HL7 timestamp taken at construction, passed here as the argument
`now`; `files` is the list of already-validated attachments the
`FileAttachmentList` constructor builds from the caller's dicts. -/
def Manifest.new (patientID encounter performer : String)
    (files : List FileAttachment) (now : String) : Manifest :=
  { status := "requested",
    authoredOn := now,
    lastModified := "",
    patientID := patientID,
    zipfile := "",
    encounter := encounter,
    performer := performer,
    inputFiles := files,
    outputFiles := [] }

/-- The colon insertion `ts[:-2] + ':' + ts[-2:]` that `__HL7_timestamp__`
performs on the raw `strftime` output. -/
def hl7_colonize (raw : String) : String :=
  raw.take (raw.length - 2) ++ ":" ++ raw.drop (raw.length - 2)

/-- Model of `Manifest.mark_done`: set status to completed, stamp `lastModified`
with the HL7 form of the current time (`rawNow` is the raw `strftime`
output of `__HL7_timestamp__`), and replace the output files. -/
def Manifest.mark_done (m : Manifest) (out_files : List FileAttachment)
    (rawNow : String) : Manifest :=
  { m with
    status := "completed",
    lastModified := hl7_colonize rawNow,
    outputFiles := out_files }

/-- Model of `__div_text__`: the human-readable HTML fragment. -/
def Manifest.div_text (m : Manifest) : String :=
  "<div xmlns='http://www.w3.org/1999/xhtml'>" ++
  (if m.status = "completed" then "Output" else "Input") ++
  " task for " ++ m.patientID ++ ", created " ++ m.authoredOn ++ "</div>"

/-- Model of `FileAttachmentList.HL7_table`: one HL7 FHIR attachment element per
file, in list order. -/
def HL7_table (fs : List FileAttachment) : List JVal :=
  fs.map (fun f => .obj [
    ("type", .obj [("text", .str f.Description)]),
    ("valueAttachment", .obj [
      ("contentType", .str f.MIME),
      ("url", .str ("file://" ++ f.Filename))])])

/-- Model of `Manifest.__HL7_dict__`: the JSON-shaped encoding.  The fixed keys come
first in insertion order, then `for`, then — each only when non-empty —
`input`, `output` and `lastModified`. -/
def Manifest.HL7_dict (m : Manifest) : JVal :=
  .obj ([
    ("resourceType", .str "Task"),
    ("text", .obj [("status", .str "generated"), ("div", .str m.div_text)]),
    ("status", .str m.status),
    ("intent", .str "order"),
    ("authoredOn", .str m.authoredOn),
    ("focus", .obj [("reference", .str m.patientID)]),
    ("encounter", .obj [("reference", .str m.encounter)]),
    ("requestedPerformer",
      .arr [.obj [("reference", .obj [("reference", .str m.performer)])]]),
    ("for", .obj [("reference", .str m.zipfile)])]
  ++ (if m.inputFiles.length > 0
      then [("input", .arr (HL7_table m.inputFiles))] else [])
  ++ (if m.outputFiles.length > 0
      then [("output", .arr (HL7_table m.outputFiles))] else [])
  ++ (if m.lastModified.length > 0
      then [("lastModified", .str m.lastModified)] else []))

/-- Strip the `file://` scheme from an attachment URL
(`url.removeprefix("file://")`). -/
def dropFileScheme (u : String) : String :=
  match u.data with
  | 'f' :: 'i' :: 'l' :: 'e' :: ':' :: '/' :: '/' :: rest => String.mk rest
  | _ => u

/-- Read one element of `parsed["input"]`/`parsed["output"]` back into an
attachment record: `a["valueAttachment"]["url"]` with the scheme stripped,
`a["valueAttachment"]["contentType"]`, and `a["type"]["text"]`.  The
nested subscripts raise as in `jindex`; non-string leaves are rejected
with the embedding marker `nonString` (the claims only concern
string-valued leaves). -/
def parseAttachment (a : JVal) : Except PyError FileAttachment := do
  let va ← jindex a (.ks "valueAttachment")
  let url ← jindex va (.ks "url")
  let ct ← jindex va (.ks "contentType")
  let ty ← jindex a (.ks "type")
  let tx ← jindex ty (.ks "text")
  match url, ct, tx with
  | .str u, .str c, .str t =>
      .ok { Filename := dropFileScheme u, MIME := c, Description := t }
  | .str _, .str _, _ => .error (.nonString "text")
  | .str _, _, _ => .error (.nonString "contentType")
  | _, _, _ => .error (.nonString "url")

/-- Read a whole `input`/`output` array back into attachment records, in
order, stopping at the first exception. -/
def parseAttachments (xs : List JVal) : Except PyError (List FileAttachment) :=
  match xs with
  | [] => .ok []
  | a :: rest => do
      let f ← parseAttachment a
      let fs ← parseAttachments rest
      .ok (f :: fs)

/-- Subscript a parsed value by a string key and require a string result
(for `parsed["status"]` and `parsed["authoredOn"]`, which this typed
embedding keeps as strings). -/
def getStrKey (parsed : JVal) (k : String) : Except PyError String :=
  match jindex parsed (.ks k) with
  | .ok (.str s) => .ok s
  | .ok _ => .error (.nonString k)
  | .error e => .error e

/-- The result of a `try_nested_key` call stored into a string field:
the fallback is `""`; a string value is stored as is; the claims never
exercise non-string values, which this embedding marks `nonString`. -/
def getStrNested (parsed : JVal) (path : List JKey) (field : String) :
    Except PyError String :=
  match try_nested_key parsed path (.str "") with
  | .ok (.str s) => .ok s
  | .ok _ => .error (.nonString field)
  | .error e => .error e

/-- Subscript by a string key and require a JSON array (for
`parsed["input"]` and `parsed["output"]`, which the code iterates). -/
def getArrKey (parsed : JVal) (k : String) : Except PyError (List JVal) :=
  match jindex parsed (.ks k) with
  | .ok (.arr xs) => .ok xs
  | .ok _ => .error (.nonArray k)
  | .error e => .error e

/-- Model of `Manifest.__fill_from_parsed`: rebuild a manifest from a parsed JSON
value, in the source's evaluation order.  `lastModified` is never read
from the input — it keeps the fresh instance's default `""`. -/
def fill_from_parsed (parsed : JVal) : Except PyError Manifest := do
  let status ← getStrKey parsed "status"
  let authoredOn ← getStrKey parsed "authoredOn"
  let zf ← getStrNested parsed [.ks "for", .ks "reference"] "zipfile"
  let pid ← getStrNested parsed [.ks "focus", .ks "reference"] "patientID"
  let enc ← getStrNested parsed [.ks "encounter", .ks "reference"] "encounter"
  let perf ← getStrNested parsed
      [.ks "requestedPerformer", .ki 0, .ks "reference", .ks "reference"]
      "performer"
  let inputArr ← getArrKey parsed "input"
  let ins ← parseAttachments inputArr
  let outs ←
    if status = "completed" then do
      let outputArr ← getArrKey parsed "output"
      parseAttachments outputArr
    else .ok []
  .ok { status := status,
        authoredOn := authoredOn,
        lastModified := "",
        patientID := pid,
        zipfile := zf,
        encounter := enc,
        performer := perf,
        inputFiles := ins,
        outputFiles := outs }

/-- Model of `Manifest.make_archive_name`: `stage.patientID.encounter.performer.
unixTime.filetype`, every component sanitised by `clean_for_filename`.
`unixTime` is the `strftime("%s")` rendering of the current time. -/
def make_archive_name (m : Manifest) (unixTime : String)
    (filetype : String) : String :=
  String.intercalate "."
    ([(if m.status = "completed" then "RES" else "NEW"),
      m.patientID, m.encounter, m.performer, unixTime, filetype].map
      clean_for_filename)

/-- The archive a successful `package_manifest` run writes: its file name,
the JSON value serialised into the `MANIFEST.json` entry, and the data
files added after it, in order. -/
structure Archive where
  name : String
  manifestJson : JVal
  members : List String

/-- Everything observable about one `package_manifest` call: the manifest
as left behind (its `zipfile` may have been set), the archive written (if
any), the missing file names reported, and the Python return value. -/
structure PackageOutcome where
  manifest : Manifest
  archive : Option Archive
  missing : List String
  retval : Option String

/-- Model of `package_manifest`: choose `outputFiles` when completed else
`inputFiles`, test each referenced name against the filesystem
(`onDisk`), and either report the missing ones and stop, or set
`man.zipfile` to the computed archive name and write `MANIFEST.json`
(the HL7 encoding of the updated manifest) followed by the data files. -/
def package_manifest (man : Manifest) (onDisk : String → Bool)
    (unixTime : String) : PackageOutcome :=
  let filename := make_archive_name man unixTime "zip"
  let files := if man.status = "completed"
    then man.outputFiles.map FileAttachment.Filename
    else man.inputFiles.map FileAttachment.Filename
  let filetest := files.map onDisk
  let missing := ((files.zip filetest).filter (fun x => x.2 = false)).map
    (fun x => x.1)
  if missing.length > 0 then
    { manifest := man,
      archive := none,
      missing := missing,
      retval := none }
  else
    let man2 := { man with zipfile := filename }
    { manifest := man2,
      archive := some { name := filename,
                        manifestJson := man2.HL7_dict,
                        members := files },
      missing := [],
      retval := some filename }

/-- Look a string key up in a JSON object (observer used to state which
keys an encoding contains). -/
def jlookup (j : JVal) (k : String) : Option JVal :=
  match j with
  | .obj kvs => jfind kvs k
  | _ => none

/- ------------------------------------------------------------------ -/
/- Lemmas shared between the claim theorems.                           -/
/- ------------------------------------------------------------------ -/

theorem jfind_append (xs ys : List (String × JVal)) (k : String) :
    jfind (xs ++ ys) k =
      match jfind xs k with
      | some v => some v
      | none => jfind ys k := by
  induction xs with
  | nil => simp [jfind]
  | cons hd tl ih =>
      obtain ⟨k2, v⟩ := hd
      by_cases h : k2 = k
      · simp [jfind, h]
      · simp [jfind, h, ih]

theorem hl7_colonize_length_pos (raw : String) :
    0 < (hl7_colonize raw).length := by
  unfold hl7_colonize
  simp only [String.length_append]
  have h1 : (":" : String).length = 1 := rfl
  omega

theorem hl7_colonize_ne_empty (raw : String) : hl7_colonize raw ≠ "" := by
  intro h
  have := hl7_colonize_length_pos raw
  rw [h] at this
  simp at this

theorem jlookup_HL7_output (m : Manifest) :
    jlookup m.HL7_dict "output" =
      if m.outputFiles.length > 0 then some (.arr (HL7_table m.outputFiles))
      else none := by
  by_cases h1 : m.inputFiles.length > 0 <;>
    by_cases h2 : m.outputFiles.length > 0 <;>
    by_cases h3 : m.lastModified.length > 0 <;>
    simp [Manifest.HL7_dict, jlookup, jfind, h1, h2, h3]

theorem jlookup_HL7_lastModified (m : Manifest) :
    jlookup m.HL7_dict "lastModified" =
      if m.lastModified.length > 0 then some (.str m.lastModified)
      else none := by
  by_cases h1 : m.inputFiles.length > 0 <;>
    by_cases h2 : m.outputFiles.length > 0 <;>
    by_cases h3 : m.lastModified.length > 0 <;>
    simp [Manifest.HL7_dict, jlookup, jfind, h1, h2, h3]

theorem fill_fresh_fields (parsed : JVal) (m : Manifest)
    (h : fill_from_parsed parsed = .ok m) :
    m.lastModified = "" ∧ (m.status ≠ "completed" → m.outputFiles = []) := by
  simp only [fill_from_parsed, bind, Except.bind] at h
  repeat' split at h
  all_goals try exact Except.noConfusion h
  all_goals injection h with h2
  all_goals subst h2
  · constructor
    · rfl
    · intro hne
      exact absurd (by assumption) hne
  · exact ⟨rfl, fun _ => rfl⟩

theorem dropFileScheme_prepend (fn : String) :
    dropFileScheme ("file://" ++ fn) = fn := by
  obtain ⟨l⟩ := fn
  rfl

theorem parseAttachments_HL7_table (fs : List FileAttachment) :
    parseAttachments (HL7_table fs) = .ok fs := by
  induction fs with
  | nil => rfl
  | cons f rest ih =>
      obtain ⟨fn, desc, mime⟩ := f
      simp only [HL7_table, List.map] at ih ⊢
      simp only [parseAttachments, parseAttachment, jindex, jfind, bind,
        Except.bind, ih, dropFileScheme_prepend]
      simp [jfind, dropFileScheme_prepend]

theorem zip_filter_missing (xs : List String) (p : String → Bool) :
    ((xs.zip (xs.map p)).filter (fun x => !x.2)).map (fun x => x.1)
      = xs.filter (fun f => !p f) := by
  induction xs with
  | nil => rfl
  | cons a rest ih => cases h : p a <;> simp [h, ih]

theorem tryNested_HL7_for (m : Manifest) :
    try_nested_key m.HL7_dict [.ks "for", .ks "reference"] (.str "")
      = .ok (.str m.zipfile) := rfl

theorem allowedChar_le_127 (c : Char) (h : allowedChar c = true) :
    c.toNat ≤ 127 := by
  unfold allowedChar at h
  simp only [Bool.or_eq_true, Bool.and_eq_true, decide_eq_true_eq] at h
  omega

theorem allowedChar_ne_63 (c : Char) (h : allowedChar c = true) :
    c.toNat ≠ 63 := by
  unfold allowedChar at h
  simp only [Bool.or_eq_true, Bool.and_eq_true, decide_eq_true_eq] at h
  omega

theorem allowedChar_sanitizeChar (c : Char) :
    allowedChar (sanitizeChar c) = true := by
  unfold sanitizeChar subDisallowed
  split
  · assumption
  · decide

theorem sanitizeChar_of_allowed (c : Char) (h : allowedChar c = true) :
    sanitizeChar c = c := by
  have h127 := allowedChar_le_127 c h
  have h63 := allowedChar_ne_63 c h
  have hq : c ≠ '?' := by
    intro hc
    subst hc
    exact h63 (by decide)
  unfold sanitizeChar asciiReplaceChar questionToUnderscore subDisallowed
  rw [if_pos h127, if_neg hq, if_pos h]

theorem sanitizeChar_idem (c : Char) :
    sanitizeChar (sanitizeChar c) = sanitizeChar c :=
  sanitizeChar_of_allowed _ (allowedChar_sanitizeChar c)

theorem map_sanitizeChar_idem (l : List Char) :
    (l.map sanitizeChar).map sanitizeChar = l.map sanitizeChar := by
  induction l with
  | nil => rfl
  | cons c t ih => simp [sanitizeChar_idem, ih]

/- ------------------------------------------------------------------ -/
/- Claim theorems.                                                     -/
/- ------------------------------------------------------------------ -/

/-- C6: `clean_for_filename` is idempotent, and every character of its
result lies in the class `[A-Za-z0-9_()-]`. -/
theorem C6_clean_for_filename_idem_and_range (s : String) :
    clean_for_filename (clean_for_filename s) = clean_for_filename s ∧
    ∀ c ∈ (clean_for_filename s).data, allowedChar c = true := by
  constructor
  · unfold clean_for_filename
    show String.mk ((s.data.map sanitizeChar).map sanitizeChar) = _
    exact congrArg String.mk (map_sanitizeChar_idem s.data)
  · intro c hc
    unfold clean_for_filename at hc
    have hc2 : c ∈ s.data.map sanitizeChar := hc
    obtain ⟨a, _, rfl⟩ := List.mem_map.1 hc2
    exact allowedChar_sanitizeChar a

/-- C4: `FileAttachmentList.insert` on a dict-shaped value fails with the
(first) missing required key when one of `Filename`, `Description`, `MIME`
is absent, and otherwise appends a fresh record of exactly those three
fields after the previously inserted elements, discarding any other
keys. -/
theorem C4_insert_dict_schema (fs : List FileAttachment)
    (d : List (String × String)) :
    (sfind d "Filename" = none →
       insertDict fs d = .error (.keyError "Filename")) ∧
    (∀ v1, sfind d "Filename" = some v1 → sfind d "Description" = none →
       insertDict fs d = .error (.keyError "Description")) ∧
    (∀ v1 v2, sfind d "Filename" = some v1 →
       sfind d "Description" = some v2 → sfind d "MIME" = none →
       insertDict fs d = .error (.keyError "MIME")) ∧
    (∀ v1 v2 v3, sfind d "Filename" = some v1 →
       sfind d "Description" = some v2 → sfind d "MIME" = some v3 →
       insertDict fs d = .ok (fs ++ [⟨v1, v2, v3⟩])) := by
  refine ⟨?_, ?_, ?_, ?_⟩
  · intro h1
    simp [insertDict, h1]
  · intro v1 h1 h2
    simp [insertDict, h1, h2]
  · intro v1 v2 h1 h2 h3
    simp [insertDict, h1, h2, h3]
  · intro v1 v2 v3 h1 h2 h3
    simp [insertDict, h1, h2, h3]

/-- Witness for C4 at concrete inputs: a dict with an unrecognised extra
key is inserted as exactly the three fields after the existing element,
and a dict lacking `Filename` is rejected naming `Filename`. -/
theorem C4_insert_dict_schema_witness :
    insertDict [⟨"x", "y", "z"⟩]
        [("Filename", "a"), ("Extra", "e"), ("Description", "b"),
         ("MIME", "c")]
      = .ok [⟨"x", "y", "z"⟩, ⟨"a", "b", "c"⟩] ∧
    insertDict [] [("Description", "b"), ("MIME", "c")]
      = .error (.keyError "Filename") := by
  constructor
  · exact (C4_insert_dict_schema _ _).2.2.2 "a" "b" "c" rfl rfl rfl
  · exact (C4_insert_dict_schema _ _).1 rfl

/-- C8 counterexample: on the empty string the iteration body never runs,
so `insert` terminates normally (already with recursion depth 1) instead
of exhausting the stack — the claim fails for that string argument. -/
theorem C8_cex_empty_string_terminates :
    insertFuel 1 (.pstr "") [] = .ok [] := rfl

/-- C8 as amended: `insert` applied to any NON-empty string never
terminates — each element is a one-character string whose iteration
yields an identical value, so every recursion-depth budget is exhausted
(`RecursionError`), for every prior list contents. -/
theorem C8_insert_nonempty_string_diverges (s : String) (h : s ≠ "")
    (fuel : Nat) (fs : List FileAttachment) :
    insertFuel fuel (.pstr s) fs = .error .recursionError := by
  induction fuel generalizing s fs with
  | zero => rfl
  | succ n ih =>
      obtain ⟨l⟩ := s
      cases l with
      | nil => exact absurd rfl h
      | cons c t =>
          have h1 : String.mk [c] ≠ "" := by
            intro hh
            have h2 : ([c] : List Char) = ([] : List Char) :=
              congrArg String.data hh
            exact List.noConfusion h2
          show insertEachWith (insertFuel n)
            (pyElems (.pstr (String.mk (c :: t)))) fs
              = .error .recursionError
          simp only [pyElems, List.map]
          rw [insertEachWith, ih (String.mk [c]) h1]

/-- Witness for the amended C8: inserting the two-character string `ab`
exhausts a recursion budget of 5. -/
theorem C8_insert_nonempty_string_diverges_witness :
    insertFuel 5 (.pstr "ab") [] = .error .recursionError :=
  C8_insert_nonempty_string_diverges "ab" (by decide) 5 []

/-- C7: `mark_done` on a requested manifest with a non-empty output list
sets the status to completed, stamps `lastModified` with the (always
non-empty) HL7 rendering of the current time, replaces `outputFiles`
with the given files, and changes nothing else: `authoredOn`,
`patientID`, `encounter`, `performer`, `inputFiles` and `zipfile` are
untouched. -/
theorem C7_mark_done_effect_and_frame (m : Manifest)
    (files : List FileAttachment) (rawNow : String)
    (hreq : m.status = "requested") (hne : files ≠ []) :
    (m.mark_done files rawNow).status = "completed" ∧
    (m.mark_done files rawNow).lastModified = hl7_colonize rawNow ∧
    (m.mark_done files rawNow).lastModified ≠ "" ∧
    (m.mark_done files rawNow).outputFiles = files ∧
    (m.mark_done files rawNow).authoredOn = m.authoredOn ∧
    (m.mark_done files rawNow).patientID = m.patientID ∧
    (m.mark_done files rawNow).encounter = m.encounter ∧
    (m.mark_done files rawNow).performer = m.performer ∧
    (m.mark_done files rawNow).inputFiles = m.inputFiles ∧
    (m.mark_done files rawNow).zipfile = m.zipfile := by
  refine ⟨rfl, rfl, ?_, rfl, rfl, rfl, rfl, rfl, rfl, rfl⟩
  show hl7_colonize rawNow ≠ ""
  exact hl7_colonize_ne_empty rawNow

/-- Witness for C7 at a concrete manifest, output file and timestamp. -/
theorem C7_mark_done_effect_and_frame_witness :
    ((Manifest.new "p" "e" "x" [] "t").mark_done [⟨"f", "d", "m"⟩]
        "2024-01-01T00:00:00+0100").status = "completed" ∧
    ((Manifest.new "p" "e" "x" [] "t").mark_done [⟨"f", "d", "m"⟩]
        "2024-01-01T00:00:00+0100").lastModified
      = hl7_colonize "2024-01-01T00:00:00+0100" ∧
    ((Manifest.new "p" "e" "x" [] "t").mark_done [⟨"f", "d", "m"⟩]
        "2024-01-01T00:00:00+0100").lastModified ≠ "" ∧
    ((Manifest.new "p" "e" "x" [] "t").mark_done [⟨"f", "d", "m"⟩]
        "2024-01-01T00:00:00+0100").outputFiles = [⟨"f", "d", "m"⟩] ∧
    ((Manifest.new "p" "e" "x" [] "t").mark_done [⟨"f", "d", "m"⟩]
        "2024-01-01T00:00:00+0100").authoredOn
      = (Manifest.new "p" "e" "x" [] "t").authoredOn ∧
    ((Manifest.new "p" "e" "x" [] "t").mark_done [⟨"f", "d", "m"⟩]
        "2024-01-01T00:00:00+0100").patientID
      = (Manifest.new "p" "e" "x" [] "t").patientID ∧
    ((Manifest.new "p" "e" "x" [] "t").mark_done [⟨"f", "d", "m"⟩]
        "2024-01-01T00:00:00+0100").encounter
      = (Manifest.new "p" "e" "x" [] "t").encounter ∧
    ((Manifest.new "p" "e" "x" [] "t").mark_done [⟨"f", "d", "m"⟩]
        "2024-01-01T00:00:00+0100").performer
      = (Manifest.new "p" "e" "x" [] "t").performer ∧
    ((Manifest.new "p" "e" "x" [] "t").mark_done [⟨"f", "d", "m"⟩]
        "2024-01-01T00:00:00+0100").inputFiles
      = (Manifest.new "p" "e" "x" [] "t").inputFiles ∧
    ((Manifest.new "p" "e" "x" [] "t").mark_done [⟨"f", "d", "m"⟩]
        "2024-01-01T00:00:00+0100").zipfile
      = (Manifest.new "p" "e" "x" [] "t").zipfile :=
  C7_mark_done_effect_and_frame (Manifest.new "p" "e" "x" [] "t")
    [⟨"f", "d", "m"⟩] "2024-01-01T00:00:00+0100" rfl (by decide)

/-- C3 counterexample: `mark_done` with an EMPTY output file list yields a
manifest with status completed whose encoding has no `output` key — the
claim fails for that manifest. -/
theorem C3_cex_completed_without_output :
    ((Manifest.new "p" "e" "x" [] "t").mark_done [] "raw").status
        = "completed" ∧
    jlookup ((Manifest.new "p" "e" "x" [] "t").mark_done [] "raw").HL7_dict
        "output" = none :=
  ⟨rfl, rfl⟩

/-- C3 as amended: for every manifest obtained by `mark_done` with a
NON-empty output file list, the encoding carries a non-empty `output`
array and a non-empty `lastModified`; for every requested manifest the
code can construct — built by `new`, or read back by `from_parsed` with a
status other than completed — both keys are absent. -/
theorem C3_output_lastModified_keys :
    (∀ (m : Manifest) (files : List FileAttachment) (rawNow : String),
       files ≠ [] →
       jlookup (m.mark_done files rawNow).HL7_dict "output"
           = some (.arr (HL7_table files)) ∧
       HL7_table files ≠ [] ∧
       jlookup (m.mark_done files rawNow).HL7_dict "lastModified"
           = some (.str (hl7_colonize rawNow)) ∧
       hl7_colonize rawNow ≠ "") ∧
    (∀ (p e perf now : String) (files : List FileAttachment),
       jlookup (Manifest.new p e perf files now).HL7_dict "output" = none ∧
       jlookup (Manifest.new p e perf files now).HL7_dict "lastModified"
           = none) ∧
    (∀ (parsed : JVal) (m : Manifest), fill_from_parsed parsed = .ok m →
       m.status ≠ "completed" →
       jlookup m.HL7_dict "output" = none ∧
       jlookup m.HL7_dict "lastModified" = none) := by
  refine ⟨?_, ?_, ?_⟩
  · intro m files rawNow hne
    have hlen : files.length > 0 := List.length_pos.mpr hne
    refine ⟨?_, ?_, ?_, hl7_colonize_ne_empty rawNow⟩
    · rw [jlookup_HL7_output]
      simp [Manifest.mark_done, hlen]
    · simp [HL7_table, hne]
    · rw [jlookup_HL7_lastModified]
      simp [Manifest.mark_done, hl7_colonize_length_pos]
  · intro p e perf now files
    constructor
    · rw [jlookup_HL7_output]
      simp [Manifest.new]
    · rw [jlookup_HL7_lastModified]
      simp [Manifest.new]
  · intro parsed m hf hst
    obtain ⟨h1, h2⟩ := fill_fresh_fields parsed m hf
    constructor
    · rw [jlookup_HL7_output]
      simp [h2 hst]
    · rw [jlookup_HL7_lastModified]
      simp [h1]

/-- Witness for the amended C3: a concrete `mark_done` with one output
file produces an encoding with the `output` and `lastModified` keys. -/
theorem C3_output_lastModified_keys_witness :
    jlookup (((Manifest.new "p" "e" "x" [] "t").mark_done [⟨"f", "d", "m"⟩]
        "raw").HL7_dict) "output"
      = some (.arr (HL7_table [⟨"f", "d", "m"⟩])) ∧
    HL7_table [(⟨"f", "d", "m"⟩ : FileAttachment)] ≠ [] ∧
    jlookup (((Manifest.new "p" "e" "x" [] "t").mark_done [⟨"f", "d", "m"⟩]
        "raw").HL7_dict) "lastModified"
      = some (.str (hl7_colonize "raw")) ∧
    hl7_colonize "raw" ≠ "" :=
  C3_output_lastModified_keys.1 (Manifest.new "p" "e" "x" [] "t")
    [⟨"f", "d", "m"⟩] "raw" (by decide)

/-- C2: the code at the claimed failing input.  `try_nested_key` catches
only `KeyError` and `TypeError`; when `requestedPerformer` is present but
an empty list, subscripting it at 0 raises `IndexError`, which escapes —
both from the helper itself and from `from_parsed` on an otherwise valid
requested-status document.  The helper docstring promises a fallback
whenever the lookup fails, so this contradicts the code documentation. -/
theorem C2_performer_lookup_indexError :
    try_nested_key (.obj [("requestedPerformer", .arr [])])
        [.ks "requestedPerformer", .ki 0, .ks "reference", .ks "reference"]
        (.str "") = .error .indexError ∧
    fill_from_parsed (.obj [
        ("status", .str "requested"),
        ("authoredOn", .str "2024-01-01T00:00:00+01:00"),
        ("requestedPerformer", .arr []),
        ("input", .arr [])])
      = .error .indexError :=
  ⟨rfl, rfl⟩

/-- C9: a parsed document whose `status` is `completed`, with valid
`status`, `authoredOn` and `input` entries (and reference lookups that
do not themselves raise), but with no `output` key, makes
`__fill_from_parsed` fail with `KeyError` on `output` — `output` is in
effect a required field whenever the status is completed. -/
theorem C9_output_required_when_completed (kvs : List (String × JVal))
    (auth zf pid enc perf : String)
    (elems : List JVal) (atts : List FileAttachment)
    (hstatus : jfind kvs "status" = some (.str "completed"))
    (hauth : jfind kvs "authoredOn" = some (.str auth))
    (hzf : try_nested_key (.obj kvs) [.ks "for", .ks "reference"] (.str "")
        = .ok (.str zf))
    (hpid : try_nested_key (.obj kvs) [.ks "focus", .ks "reference"]
        (.str "") = .ok (.str pid))
    (henc : try_nested_key (.obj kvs) [.ks "encounter", .ks "reference"]
        (.str "") = .ok (.str enc))
    (hperf : try_nested_key (.obj kvs)
        [.ks "requestedPerformer", .ki 0, .ks "reference", .ks "reference"]
        (.str "") = .ok (.str perf))
    (hinput : jfind kvs "input" = some (.arr elems))
    (hparse : parseAttachments elems = .ok atts)
    (houtput : jfind kvs "output" = none) :
    fill_from_parsed (.obj kvs) = .error (.keyError "output") := by
  simp only [fill_from_parsed, getStrKey, getStrNested, getArrKey, jindex,
    bind, Except.bind, hstatus, hauth, hzf, hpid, henc, hperf, hinput,
    hparse, houtput]
  simp

/-- Witness for C9: a concrete completed document with an empty input
array and no `output` key fails with `KeyError` on `output`. -/
theorem C9_output_required_when_completed_witness :
    fill_from_parsed (.obj [("status", .str "completed"),
        ("authoredOn", .str "T"), ("input", .arr [])])
      = .error (.keyError "output") :=
  C9_output_required_when_completed
    [("status", .str "completed"), ("authoredOn", .str "T"),
     ("input", .arr [])] "T" "" "" "" "" [] []
    rfl rfl rfl rfl rfl rfl rfl rfl rfl

/-- C1 counterexample: for a requested manifest with an EMPTY `inputFiles`
list, the encoding omits the `input` key, so parsing it back fails with
`KeyError` on `input` instead of reproducing the manifest — the claim
fails in exactly the empty-inputFiles case it includes. -/
theorem C1_cex_empty_input_roundtrip_fails :
    fill_from_parsed (Manifest.new "p" "e" "x" [] "ts").HL7_dict
      = .error (.keyError "input") := rfl

/-- C1 as amended: for every manifest built by `new` with a NON-empty
attachment list, parsing the HL7 encoding back reproduces the manifest on
every field (`zipfile` included, both being empty before packaging). -/
theorem C1_roundtrip_requested (p e perf now : String)
    (files : List FileAttachment) (h : files ≠ []) :
    fill_from_parsed (Manifest.new p e perf files now).HL7_dict
      = .ok (Manifest.new p e perf files now) := by
  have hlen : files.length > 0 := List.length_pos.mpr h
  have hdict : (Manifest.new p e perf files now).HL7_dict
      = .obj ([
        ("resourceType", .str "Task"),
        ("text", .obj [("status", .str "generated"),
          ("div", .str (Manifest.new p e perf files now).div_text)]),
        ("status", .str "requested"),
        ("intent", .str "order"),
        ("authoredOn", .str now),
        ("focus", .obj [("reference", .str p)]),
        ("encounter", .obj [("reference", .str e)]),
        ("requestedPerformer",
          .arr [.obj [("reference", .obj [("reference", .str perf)])]]),
        ("for", .obj [("reference", .str "")]),
        ("input", .arr (HL7_table files))]) := by
    unfold Manifest.HL7_dict
    simp [Manifest.new, hlen]
  rw [hdict]
  simp only [fill_from_parsed, getStrKey, getStrNested, getArrKey,
    try_nested_key, jindex, jfind, bind, Except.bind,
    parseAttachments_HL7_table]
  simp [jfind, Manifest.new, parseAttachments_HL7_table]

/-- Witness for the amended C1 at the documentation example manifest. -/
theorem C1_roundtrip_requested_witness :
    fill_from_parsed (Manifest.new "Patient-0001" "End of Treatment"
        "OUS0001" [⟨"a.csv", "Methylation", "text/csv"⟩]
        "2024-01-01T00:00:00+01:00").HL7_dict
      = .ok (Manifest.new "Patient-0001" "End of Treatment" "OUS0001"
        [⟨"a.csv", "Methylation", "text/csv"⟩]
        "2024-01-01T00:00:00+01:00") :=
  C1_roundtrip_requested "Patient-0001" "End of Treatment" "OUS0001"
    "2024-01-01T00:00:00+01:00" [⟨"a.csv", "Methylation", "text/csv"⟩]
    (by decide)

/-- C5: `package_manifest` reports as missing exactly the referenced
filenames (of `outputFiles` when completed, else `inputFiles`) absent
from disk; when any is missing it writes no archive, returns no archive
name and leaves the manifest untouched, and when none is missing it
returns the computed archive name, stores it in `manifest.zipfile` and
writes an archive. -/
theorem C5_package_missing_files (man : Manifest) (onDisk : String → Bool)
    (unixTime : String) :
    (package_manifest man onDisk unixTime).missing
        = (if man.status = "completed"
            then man.outputFiles.map FileAttachment.Filename
            else man.inputFiles.map FileAttachment.Filename).filter
            (fun f => onDisk f = false) ∧
    ((package_manifest man onDisk unixTime).missing ≠ [] →
       (package_manifest man onDisk unixTime).retval = none ∧
       (package_manifest man onDisk unixTime).archive = none ∧
       (package_manifest man onDisk unixTime).manifest = man) ∧
    ((package_manifest man onDisk unixTime).missing = [] →
       (package_manifest man onDisk unixTime).retval
           = some (make_archive_name man unixTime "zip") ∧
       (package_manifest man onDisk unixTime).manifest.zipfile
           = make_archive_name man unixTime "zip" ∧
       (package_manifest man onDisk unixTime).archive ≠ none) := by
  by_cases hst : man.status = "completed" <;>
    simp only [package_manifest, hst, if_true, if_false, ite_true,
      ite_false, Bool.decide_eq_false, zip_filter_missing] <;>
    split
  case pos.isTrue hlen =>
    refine ⟨rfl, fun _ => ⟨rfl, rfl, rfl⟩, fun hemp => ?_⟩
    simp only [PackageOutcome.missing] at hemp
    rw [hemp] at hlen
    simp at hlen
  case pos.isFalse hnlen =>
    have hnil : (man.outputFiles.map FileAttachment.Filename).filter
        (fun f => !onDisk f) = [] := by
      simpa using hnlen
    refine ⟨hnil.symm, fun hne => absurd rfl hne,
      fun _ => ⟨rfl, rfl, by simp⟩⟩
  case neg.isTrue hlen =>
    refine ⟨rfl, fun _ => ⟨rfl, rfl, rfl⟩, fun hemp => ?_⟩
    simp only [PackageOutcome.missing] at hemp
    rw [hemp] at hlen
    simp at hlen
  case neg.isFalse hnlen =>
    have hnil : (man.inputFiles.map FileAttachment.Filename).filter
        (fun f => !onDisk f) = [] := by
      simpa using hnlen
    refine ⟨hnil.symm, fun hne => absurd rfl hne,
      fun _ => ⟨rfl, rfl, by simp⟩⟩

/-- Witness for C5: packaging a requested manifest whose only referenced
file is absent reports exactly that name, writes nothing and returns no
archive name. -/
theorem C5_package_missing_files_witness :
    (package_manifest (Manifest.new "p" "e" "x"
        [⟨"a.csv", "d", "text/csv"⟩] "t") (fun _ => false) "1").retval
      = none ∧
    (package_manifest (Manifest.new "p" "e" "x"
        [⟨"a.csv", "d", "text/csv"⟩] "t") (fun _ => false) "1").archive
      = none ∧
    (package_manifest (Manifest.new "p" "e" "x"
        [⟨"a.csv", "d", "text/csv"⟩] "t") (fun _ => false) "1").manifest
      = Manifest.new "p" "e" "x" [⟨"a.csv", "d", "text/csv"⟩] "t" :=
  (C5_package_missing_files
      (Manifest.new "p" "e" "x" [⟨"a.csv", "d", "text/csv"⟩] "t")
      (fun _ => false) "1").2.1 (by decide)

/-- C10: whenever `package_manifest` writes an archive, the
`for.reference` field of the serialised `MANIFEST.json` inside it equals
the name of that very archive: `zipfile` is set before serialisation. -/
theorem C10_archive_records_own_name (man : Manifest)
    (onDisk : String → Bool) (unixTime : String) (a : Archive)
    (h : (package_manifest man onDisk unixTime).archive = some a) :
    try_nested_key a.manifestJson [.ks "for", .ks "reference"] (.str "")
      = .ok (.str a.name) := by
  by_cases hst : man.status = "completed" <;>
    simp only [package_manifest, hst, if_true, if_false, ite_true,
      ite_false] at h <;>
    split at h
  case pos.isTrue => exact Option.noConfusion h
  case pos.isFalse =>
    injection h with h2
    subst h2
    exact tryNested_HL7_for _
  case neg.isTrue => exact Option.noConfusion h
  case neg.isFalse =>
    injection h with h2
    subst h2
    exact tryNested_HL7_for _

/-- Witness for C10: the archive written for a concrete requested
manifest records its own name `NEW.p.e.x.1.zip` under `for.reference`. -/
theorem C10_archive_records_own_name_witness :
    try_nested_key
        ({ Manifest.new "p" "e" "x" [] "t" with
            zipfile := "NEW.p.e.x.1.zip" } : Manifest).HL7_dict
        [.ks "for", .ks "reference"] (.str "")
      = .ok (.str "NEW.p.e.x.1.zip") :=
  C10_archive_records_own_name (Manifest.new "p" "e" "x" [] "t")
    (fun _ => true) "1"
    { name := "NEW.p.e.x.1.zip",
      manifestJson := ({ Manifest.new "p" "e" "x" [] "t" with
          zipfile := "NEW.p.e.x.1.zip" } : Manifest).HL7_dict,
      members := [] }
    rfl

end TeamplayManifest
